import Mathlib

/-!
Verification of the polarsens-camera-codes image pipeline.

The Python sources are embedded shallowly:

* NumPy 2-D arrays become `NpArray α`: a shape `(nr, nc)` together with a total
  entry function; entries at indices outside the shape are irrelevant and all
  statements only constrain the in-shape region (or hold vacuously outside it).
* `float64` values are modelled exactly: by `ℚ` where only field operations
  occur (add/sub/divide by 2 are exact on the data handled here), and by `ℝ`
  where `sqrt`, `atan2` or `π` occur.
* NumPy's `int16` is modelled as `ℤ` with an explicit two's-complement
  reduction modulo 2^16 (`int16ofZ`).
* Fallible NumPy operations (shape-mismatched slice assignment, incompatible
  broadcasting) are modelled with `Option`: `none` stands for the `ValueError`
  NumPy raises there.  Broadcasting of a length-1 axis is modelled faithfully;
  all concrete inputs used below have the sizes for which this matches NumPy.
-/

/-- A NumPy-style 2-D array: a shape and a total entry function.  Entries at
`i ≥ nr` or `j ≥ nc` carry no information. -/
structure NpArray (α : Type) where
  nr : ℕ
  nc : ℕ
  entry : ℕ → ℕ → α

/-- NumPy broadcasting of one axis: sizes must agree or one of them must be 1. -/
def bcastDim (a b : ℕ) : Option ℕ :=
  if a = b then some a
  else if a = 1 then some b
  else if b = 1 then some a
  else none

/-- Elementwise combination of two arrays under NumPy 2-D broadcasting rules;
`none` models the `ValueError` NumPy raises for incompatible shapes. -/
def npZip {α β γ : Type} (f : α → β → γ) (A : NpArray α) (B : NpArray β) :
    Option (NpArray γ) := do
  let nr ← bcastDim A.nr B.nr
  let nc ← bcastDim A.nc B.nc
  return ⟨nr, nc, fun i j =>
    f (A.entry (if A.nr = 1 then 0 else i) (if A.nc = 1 then 0 else j))
      (B.entry (if B.nr = 1 then 0 else i) (if B.nc = 1 then 0 else j))⟩

/-- Elementwise map (NumPy unary ufunc / scalar operation). -/
def npMap {α β : Type} (f : α → β) (A : NpArray α) : NpArray β :=
  ⟨A.nr, A.nc, fun i j => f (A.entry i j)⟩

/-- A constant array (used to build concrete test inputs). -/
def constArr {α : Type} (r c : ℕ) (x : α) : NpArray α := ⟨r, c, fun _ _ => x⟩

/- ------------------------------------------------------------------
RawDecoder, from polarsens_img_analysis.py, readRawToNumpy (lines 29-80).
------------------------------------------------------------------ -/

/-- IMG_HEIGHT from polarsens_img_analysis.py line 25. -/
def IMG_HEIGHT : ℕ := 2048

/-- IMG_WIDTH from polarsens_img_analysis.py line 25. -/
def IMG_WIDTH : ℕ := 2448

/-- NPIX = IMG_HEIGHT * IMG_WIDTH (line 26). -/
def NPIX : ℕ := IMG_HEIGHT * IMG_WIDTH

/-- Two's-complement reduction of an integer into the `int16` range
[-32768, 32767], the semantics NumPy gives `(odd_arr << 8) + evn_arr`
on an `int16` array (each step wraps modulo 2^16; the composition of the
wraps collapses to a single reduction by congruence modulo 2^16). -/
def int16ofZ (z : ℤ) : ℤ := (z + 32768) % 65536 - 32768

/-- The Mono8 branch of readRawToNumpy (lines 50-52 and the reshape on
line 78): each byte is one sample, reshaped row-major to
IMG_HEIGHT × IMG_WIDTH.  The raw file is modelled as its byte sequence
`b : ℕ → ℕ` (values < 256, as produced by `np.fromfile(..., dtype=uint8)`). -/
def decode8 (b : ℕ → ℕ) : NpArray ℤ :=
  ⟨IMG_HEIGHT, IMG_WIDTH, fun i j => (b (i * IMG_WIDTH + j) : ℤ)⟩

/-- The Mono12 branch of readRawToNumpy (lines 54-71 and the reshape on
line 78): even bytes `evn = b[0::2]`, odd bytes `odd = b[1::2]`, both cast
to `int16`, and the sample is `(odd << 8) + evn` in `int16` arithmetic,
i.e. `int16ofZ (odd * 2^8 + evn)`. -/
def decode12 (b : ℕ → ℕ) : NpArray ℤ :=
  ⟨IMG_HEIGHT, IMG_WIDTH, fun i j =>
    int16ofZ ((b (2 * (i * IMG_WIDTH + j) + 1) : ℤ) * 256 +
      (b (2 * (i * IMG_WIDTH + j)) : ℤ))⟩

/-- readRawToNumpy (lines 29-80): dispatch on the byte count; any other
length hits `sys.exit(0)` (line 75), modelled as `none`. -/
def readRawToNumpy (numBytes : ℕ) (b : ℕ → ℕ) : Option (NpArray ℤ) :=
  if numBytes = NPIX then some (decode8 b)
  else if numBytes = 2 * NPIX then some (decode12 b)
  else none

/-- For a low part below 2^8, bitwise-or with a value shifted left by 8 is
plain addition (the byte fields are disjoint). -/
theorem shiftLeft_eight_lor (a b : ℕ) (hb : b < 256) :
    a <<< 8 ||| b = a * 256 + b := by
  apply Nat.eq_of_testBit_eq
  intro i
  rw [Nat.testBit_lor, Nat.testBit_shiftLeft,
    show a * 256 + b = 2 ^ 8 * a + b by ring,
    Nat.testBit_mul_pow_two_add a (show b < 2 ^ 8 from hb) i]
  by_cases h : i < 8
  · have h8 : ¬ (i ≥ 8) := by omega
    simp [h, h8]
  · have h8 : i ≥ 8 := by omega
    have hbi : b.testBit i = false :=
      Nat.testBit_eq_false_of_lt
        (lt_of_lt_of_le hb (Nat.pow_le_pow_right (show 0 < 2 by norm_num) h8))
    simp [h, h8, hbi]

/-- Bytes of the C3 counterexample buffer: evn₀ = 0, odd₀ = 255, rest 0. -/
def c3Bytes : ℕ → ℕ := fun n => if n = 1 then 255 else 0

/-- Claim C3 (counterexample): the 12-bit decode is done in signed `int16`
arithmetic, so a buffer whose first odd byte is 255 decodes position 0 to
-256, not to `(255 <<< 8) ||| 0 = 65280` as the claim states. -/
theorem c3_int16_overflow_cex :
    ((readRawToNumpy (2 * NPIX) c3Bytes).map fun M => M.entry 0 0) =
      some (-256) ∧ ((255 <<< 8 ||| 0 : ℕ) : ℤ) = 65280 := by
  constructor
  · decide
  · decide

/-- Claim C3 (amended): for a buffer of length 2·NPIX the decoder takes the
Mono12 branch, and the sample at flat position k (row k / W, column k % W)
equals `(odd_k << 8) | evn_k` provided the odd byte is below 128 (no
`int16` sign overflow); in general the stored value is the `int16`
reduction of `odd_k·2^8 + evn_k`. -/
theorem readRawToNumpy_mono12_sample (b : ℕ → ℕ) (k : ℕ)
    (hev : b (2 * k) < 256) (hod : b (2 * k + 1) < 128) :
    readRawToNumpy (2 * NPIX) b = some (decode12 b) ∧
    (decode12 b).entry (k / IMG_WIDTH) (k % IMG_WIDTH) =
      ((b (2 * k + 1) <<< 8 ||| b (2 * k) : ℕ) : ℤ) := by
  constructor
  · rw [readRawToNumpy, if_neg (by decide), if_pos rfl]
  · have hidx : k / IMG_WIDTH * IMG_WIDTH + k % IMG_WIDTH = k := by
      rw [Nat.mul_comm (k / IMG_WIDTH) IMG_WIDTH]
      exact Nat.div_add_mod k IMG_WIDTH
    simp only [decode12]
    rw [hidx, shiftLeft_eight_lor _ _ hev]
    have h1 : ((b (2 * k + 1) : ℤ)) < 128 := by exact_mod_cast hod
    have h2 : ((b (2 * k) : ℤ)) < 256 := by exact_mod_cast hev
    have h3 : (0 : ℤ) ≤ (b (2 * k + 1) : ℤ) := Int.natCast_nonneg _
    have h4 : (0 : ℤ) ≤ (b (2 * k) : ℤ) := Int.natCast_nonneg _
    simp only [int16ofZ]
    push_cast
    omega

/-- Bytes of the C3 witness buffer: evn₀ = 0x34, odd₀ = 0x02, rest 0. -/
def c3WBytes : ℕ → ℕ := fun n => if n = 0 then 52 else if n = 1 then 2 else 0

/-- Witness for C3 (amended): evn = 0x34, odd = 0x02 decodes to 564. -/
theorem readRawToNumpy_mono12_sample_witness :
    readRawToNumpy (2 * NPIX) c3WBytes = some (decode12 c3WBytes) ∧
    (decode12 c3WBytes).entry 0 0 = 564 := by
  have h := readRawToNumpy_mono12_sample c3WBytes 0 (by decide) (by decide)
  refine ⟨h.1, ?_⟩
  have h2 := h.2
  rw [show (0 : ℕ) / IMG_WIDTH = 0 from rfl,
    show (0 : ℕ) % IMG_WIDTH = 0 from rfl] at h2
  rw [h2]
  decide

/-- Bytes of the C9 counterexample buffer: evn₀ = 0, odd₀ = 16, rest 0. -/
def c9Bytes : ℕ → ℕ := fun n => if n = 1 then 16 else 0

/-- Claim C9 (counterexample): a valid-length Mono12 buffer whose first odd byte
is 16 decodes position 0 to 4096, which exceeds 2^12 - 1 = 4095; the
decoder never masks samples to 12 bits. -/
theorem c9_range_cex :
    ((readRawToNumpy (2 * NPIX) c9Bytes).map fun M => M.entry 0 0) =
      some 4096 ∧ ¬ ((4096 : ℤ) ≤ 2 ^ 12 - 1) := by
  constructor
  · decide
  · decide

/-- Claim C9 (amended): for byte inputs (values < 256), the 8-bit decode keeps
every sample in [0, 255]; the 12-bit decode produces `int16` samples, which
stay in [0, 4095] provided every odd-indexed byte is at most 15 (true
12-bit packing) — arbitrary buffers can leave that range. -/
theorem readRawToNumpy_sample_range (b : ℕ → ℕ) (hb : ∀ i, b i < 256) :
    (readRawToNumpy NPIX b = some (decode8 b) ∧
      ∀ i j, 0 ≤ (decode8 b).entry i j ∧ (decode8 b).entry i j ≤ 255) ∧
    ((∀ i, b (2 * i + 1) ≤ 15) →
      readRawToNumpy (2 * NPIX) b = some (decode12 b) ∧
      ∀ i j, 0 ≤ (decode12 b).entry i j ∧ (decode12 b).entry i j ≤ 4095) := by
  refine ⟨⟨by rw [readRawToNumpy, if_pos rfl], fun i j => ?_⟩, fun hodd => ⟨?_, fun i j => ?_⟩⟩
  · simp only [decode8]
    have h1 : b (i * IMG_WIDTH + j) < 256 := hb _
    omega
  · rw [readRawToNumpy, if_neg (by decide), if_pos rfl]
  · simp only [decode12, int16ofZ]
    have h1 : b (2 * (i * IMG_WIDTH + j) + 1) ≤ 15 := hodd _
    have h2 : b (2 * (i * IMG_WIDTH + j)) < 256 := hb _
    have h3 : ((b (2 * (i * IMG_WIDTH + j) + 1)) : ℤ) ≤ 15 := by exact_mod_cast h1
    have h4 : ((b (2 * (i * IMG_WIDTH + j))) : ℤ) < 256 := by exact_mod_cast h2
    have h5 : (0 : ℤ) ≤ (b (2 * (i * IMG_WIDTH + j) + 1) : ℤ) := Int.natCast_nonneg _
    have h6 : (0 : ℤ) ≤ (b (2 * (i * IMG_WIDTH + j)) : ℤ) := Int.natCast_nonneg _
    constructor <;> omega

/-- Witness for C9 (amended): the all-zero buffer decodes, in both modes,
to samples inside the claimed ranges at position (0, 0). -/
theorem readRawToNumpy_sample_range_witness :
    (0 ≤ (decode8 (fun _ => 0)).entry 0 0 ∧ (decode8 (fun _ => 0)).entry 0 0 ≤ 255) ∧
    (0 ≤ (decode12 (fun _ => 0)).entry 0 0 ∧ (decode12 (fun _ => 0)).entry 0 0 ≤ 4095) := by
  have h := readRawToNumpy_sample_range (fun _ => 0) (fun i => by norm_num)
  exact ⟨h.1.2 0 0, (h.2 (fun i => by norm_num)).2 0 0⟩

/- ------------------------------------------------------------------
MosaicSplitter, from polarsens_img_analysis.py, extractSubimages
(lines 83-104).
------------------------------------------------------------------ -/

/-- The strided view `A[r0::2, c0::2]`: NumPy gives it
`ceil((n - s) / 2) = (n - s + 1) / 2` elements along an axis of size n. -/
def npStrideSlice {α : Type} (A : NpArray α) (r0 c0 : ℕ) : NpArray α :=
  ⟨(A.nr - r0 + 1) / 2, (A.nc - c0 + 1) / 2,
    fun i j => A.entry (r0 + 2 * i) (c0 + 2 * j)⟩

/-- extractSubimages (lines 99-104): the four parity sub-grids, cast with
`astype('float64')` (exact on integer samples, modelled as the cast ℤ → ℚ);
returns (orient000, orient045, orient090, orient135) as in line 104. -/
def extractSubimages (A : NpArray ℤ) :
    NpArray ℚ × NpArray ℚ × NpArray ℚ × NpArray ℚ :=
  let toF := npMap (fun v : ℤ => (v : ℚ))
  let orient090 := toF (npStrideSlice A 0 0)
  let orient045 := toF (npStrideSlice A 0 1)
  let orient135 := toF (npStrideSlice A 1 0)
  let orient000 := toF (npStrideSlice A 1 1)
  (orient000, orient045, orient090, orient135)

/-- Claim C4: on a frame with even dimensions, the four orientation grids all have
shape (H/2, W/2) and follow the fixed parity mapping: 90° at (even, even),
45° at (even, odd), 135° at (odd, even), 0° at (odd, odd). -/
theorem extractSubimages_spec (A : NpArray ℤ)
    (hr : A.nr % 2 = 0) (hc : A.nc % 2 = 0) :
    ((extractSubimages A).1.nr = A.nr / 2 ∧ (extractSubimages A).1.nc = A.nc / 2 ∧
     (extractSubimages A).2.1.nr = A.nr / 2 ∧ (extractSubimages A).2.1.nc = A.nc / 2 ∧
     (extractSubimages A).2.2.1.nr = A.nr / 2 ∧ (extractSubimages A).2.2.1.nc = A.nc / 2 ∧
     (extractSubimages A).2.2.2.nr = A.nr / 2 ∧ (extractSubimages A).2.2.2.nc = A.nc / 2) ∧
    ∀ i j,
      (extractSubimages A).2.2.1.entry i j = ((A.entry (2 * i) (2 * j) : ℤ) : ℚ) ∧
      (extractSubimages A).2.1.entry i j = ((A.entry (2 * i) (2 * j + 1) : ℤ) : ℚ) ∧
      (extractSubimages A).2.2.2.entry i j = ((A.entry (2 * i + 1) (2 * j) : ℤ) : ℚ) ∧
      (extractSubimages A).1.entry i j = ((A.entry (2 * i + 1) (2 * j + 1) : ℤ) : ℚ) := by
  constructor
  · refine ⟨?_, ?_, ?_, ?_, ?_, ?_, ?_, ?_⟩ <;>
      · simp only [extractSubimages, npMap, npStrideSlice]
        omega
  · intro i j
    refine ⟨?_, ?_, ?_, ?_⟩ <;>
      · simp only [extractSubimages, npMap, npStrideSlice, Nat.zero_add]
        try rw [show 1 + 2 * i = 2 * i + 1 from by omega]
        try rw [show 1 + 2 * j = 2 * j + 1 from by omega]
        try rfl

/-- Concrete 2×2 frame for the C4 witness. -/
def splitW : NpArray ℤ := ⟨2, 2, fun i j => (20 + 2 * i + j : ℤ)⟩

/-- Witness for C4 at a concrete 2×2 frame. -/
theorem extractSubimages_spec_witness :
    (extractSubimages splitW).2.2.1.entry 0 0 = 20 ∧
    (extractSubimages splitW).1.entry 0 0 = 23 ∧
    (extractSubimages splitW).1.nr = 1 := by
  have h := extractSubimages_spec splitW (by decide) (by decide)
  refine ⟨?_, ?_, ?_⟩
  · rw [(h.2 0 0).1]; decide
  · rw [(h.2 0 0).2.2.2]; decide
  · rw [h.1.1]; decide

/- ------------------------------------------------------------------
BilinearReconstructor, from polarsens_img_analysis.py, do_bilinear
(lines 107-170).
------------------------------------------------------------------ -/

/-- The slice `A[:-1, :]` — delete the last row. -/
def npDropLastRow {α : Type} (A : NpArray α) : NpArray α :=
  ⟨A.nr - 1, A.nc, A.entry⟩

/-- The slice `A[1:, :]` — delete the first row. -/
def npDropFirstRow {α : Type} (A : NpArray α) : NpArray α :=
  ⟨A.nr - 1, A.nc, fun i j => A.entry (i + 1) j⟩

/-- The slice `A[:, :-1]` — delete the last column. -/
def npDropLastCol {α : Type} (A : NpArray α) : NpArray α :=
  ⟨A.nr, A.nc - 1, A.entry⟩

/-- The slice `A[:, 1:]` — delete the first column. -/
def npDropFirstCol {α : Type} (A : NpArray α) : NpArray α :=
  ⟨A.nr, A.nc - 1, fun i j => A.entry i (j + 1)⟩

/-- The array `np.zeros((r, c))`. -/
def npZeros (r c : ℕ) : NpArray ℚ := ⟨r, c, fun _ _ => 0⟩

/-- Strided slice assignment `A[r0::2, c0::2] = B`.  NumPy requires the
slice extent to match `B`'s shape exactly (the arrays assigned here are
never of size 1 on an axis, so no broadcasting applies); a mismatch raises
`ValueError`, modelled as `none`. -/
def npSetStrided {α : Type} (A B : NpArray α) (r0 c0 : ℕ) :
    Option (NpArray α) :=
  if (A.nr - r0 + 1) / 2 = B.nr ∧ (A.nc - c0 + 1) / 2 = B.nc then
    some ⟨A.nr, A.nc, fun i j =>
      if r0 ≤ i ∧ (i - r0) % 2 = 0 ∧ c0 ≤ j ∧ (j - c0) % 2 = 0 then
        B.entry ((i - r0) / 2) ((j - c0) / 2)
      else A.entry i j⟩
  else none

/-- Contiguous slice assignment `A[r0:r1, c0:c1] = B` (step 1).  NumPy
clips the bounds to the array shape and requires the clipped extent to
match `B`'s shape (again no axis of size 1 arises here, so exact match is
the applicable rule); a mismatch raises `ValueError`, modelled as `none`. -/
def npSetSlice {α : Type} (A B : NpArray α) (r0 r1 c0 c1 : ℕ) :
    Option (NpArray α) :=
  if min r1 A.nr - min r0 A.nr = B.nr ∧ min c1 A.nc - min c0 A.nc = B.nc then
    some ⟨A.nr, A.nc, fun i j =>
      if r0 ≤ i ∧ i < min r1 A.nr ∧ c0 ≤ j ∧ j < min c1 A.nc then
        B.entry (i - r0) (j - c0)
      else A.entry i j⟩
  else none

/-- The slice `A[1:-1, 1:-1]` — trim one row/column from each edge. -/
def npTrim {α : Type} (A : NpArray α) : NpArray α :=
  ⟨A.nr - 2, A.nc - 2, fun i j => A.entry (i + 1) (j + 1)⟩

/-- do_bilinear (lines 107-170), statement by statement.  Note the column
bound of the placement slice on line 164 of the source reads
`colOffset : 2 * nc - 1 + rowOffset`, i.e. its upper bound uses
`rowOffset`; this is reproduced verbatim below. -/
def do_bilinear (orientX : NpArray ℚ) (rowOffset colOffset : ℕ) :
    Option (NpArray ℚ) := do
  let nr := orientX.nr
  let nc := orientX.nc
  let top := npDropLastRow orientX
  let bot := npDropFirstRow orientX
  let vAv := npMap (· / 2) (← npZip (· + ·) top bot)
  let left := npDropLastCol orientX
  let rght := npDropFirstCol orientX
  let hAv := npMap (· / 2) (← npZip (· + ·) left rght)
  let vAv_r := npDropLastCol vAv
  let vAv_l := npDropFirstCol vAv
  let midPt := npMap (· / 2) (← npZip (· + ·) vAv_r vAv_l)
  let orientXfull := npZeros (2 * nr - 1) (2 * nc - 1)
  let orientXcmos := npZeros (2 * nr) (2 * nc)
  let f1 ← npSetStrided orientXfull orientX 0 0
  let f2 ← npSetStrided f1 vAv 1 0
  let f3 ← npSetStrided f2 hAv 0 1
  let f4 ← npSetStrided f3 midPt 1 1
  let placed ← npSetSlice orientXcmos f4
    rowOffset (2 * nr - 1 + rowOffset) colOffset (2 * nc - 1 + rowOffset)
  return npTrim placed

/-- Concrete 2×2 orientation grid [[1, 2], [3, 4]] for C1. -/
def gridC1 : NpArray ℚ := ⟨2, 2, fun i j => (1 + 2 * i + j : ℚ)⟩

/-- Claim C1: with the phase offsets of the 45° orientation (rowOffset = 0,
colOffset = 1) the placement slice built on source line 164 is 2 columns
wide while the combined array has 3 columns, so NumPy raises `ValueError`
(`none`) instead of reconstructing; with matching offsets (0, 0) the same
grid reconstructs to the claimed shape (2·2-2, 2·2-2). -/
theorem do_bilinear_offset_bug :
    ((do_bilinear gridC1 0 0).map fun M => (M.nr, M.nc)) = some (2, 2) ∧
    do_bilinear gridC1 0 1 = none := by
  constructor
  · rfl
  · rfl

/-- Concrete 3×3 orientation grid [[0..8]] for C2. -/
def gridC2 : NpArray ℚ := ⟨3, 3, fun i j => ((3 * i + j : ℕ) : ℚ)⟩

/-- Claim C2: with the phase offsets of the 135° orientation (rowOffset = 1,
colOffset = 0) reconstruction raises `ValueError` (`none`), so it cannot
agree with the original samples anywhere; with the diagonal offsets (1, 1)
the code does run and reproduces the original sample grid[1][1] = 4 at the
corresponding post-trim position (2, 2). -/
theorem do_bilinear_exactness_bug :
    do_bilinear gridC2 1 0 = none ∧
    ((do_bilinear gridC2 1 1).map fun M => M.entry 2 2) =
      some (gridC2.entry 1 1) := by
  constructor
  · rfl
  · decide

/- ------------------------------------------------------------------
PolarimetryEngine, from polarsens_img_analysis.py (computeStokes lines
173-192, computeDOLP lines 195-213, computeAOLP lines 216-234) and
snr-dolp.py (lines 29-47).
------------------------------------------------------------------ -/

/-- Unfolding `npZip` when the two shapes agree exactly. -/
theorem npZip_eq {α β γ : Type} (f : α → β → γ) (A : NpArray α) (B : NpArray β)
    (h1 : A.nr = B.nr) (h2 : A.nc = B.nc) :
    npZip f A B = some ⟨A.nr, A.nc, fun i j =>
      f (A.entry (if A.nr = 1 then 0 else i) (if A.nc = 1 then 0 else j))
        (B.entry (if B.nr = 1 then 0 else i) (if B.nc = 1 then 0 else j))⟩ := by
  simp [npZip, bcastDim, ← h1, ← h2]

/-- Inside the shape, the broadcast index adjustment is the identity. -/
theorem entry_clamp {α : Type} (A : NpArray α) {i j : ℕ}
    (hi : i < A.nr) (hj : j < A.nc) :
    A.entry (if A.nr = 1 then 0 else i) (if A.nc = 1 then 0 else j) =
      A.entry i j := by
  have e1 : (if A.nr = 1 then 0 else i) = i := by
    by_cases h : A.nr = 1
    · simp only [h, if_pos]
      omega
    · simp [h]
  have e2 : (if A.nc = 1 then 0 else j) = j := by
    by_cases h : A.nc = 1
    · simp only [h, if_pos]
      omega
    · simp [h]
  rw [e1, e2]

/-- Applying `npZip` on equal shapes: it succeeds, keeps the shape, and is pointwise
`f` inside the shape. -/
theorem npZip_some {α β γ : Type} (f : α → β → γ) (A : NpArray α) (B : NpArray β)
    (h1 : A.nr = B.nr) (h2 : A.nc = B.nc) :
    ∃ C, npZip f A B = some C ∧ C.nr = A.nr ∧ C.nc = A.nc ∧
      ∀ i j, i < A.nr → j < A.nc → C.entry i j = f (A.entry i j) (B.entry i j) := by
  refine ⟨_, npZip_eq f A B h1 h2, rfl, rfl, ?_⟩
  intro i j hi hj
  show f (A.entry _ _) (B.entry _ _) = _
  rw [entry_clamp A hi hj, entry_clamp B (h1 ▸ hi) (h2 ▸ hj)]

/-- computeStokes (lines 188-192): S0 = (o000+o045+o090+o135)/2,
S1 = o000-o090, S2 = o045-o135, elementwise with NumPy semantics. -/
def computeStokes (orient000 orient045 orient090 orient135 : NpArray ℚ) :
    Option (NpArray ℚ × NpArray ℚ × NpArray ℚ) := do
  let s1 ← npZip (· + ·) orient000 orient045
  let s2 ← npZip (· + ·) s1 orient090
  let s3 ← npZip (· + ·) s2 orient135
  let S0 := npMap (· / 2) s3
  let S1 ← npZip (· - ·) orient000 orient090
  let S2 ← npZip (· - ·) orient045 orient135
  return (S0, S1, S2)

/-- A `float64` result that may be non-finite: IEEE-754 division of a
finite numerator by zero yields ±Inf or NaN (and raises nothing); we track
finiteness together with the exact real value when finite. -/
structure FloatVal where
  val : ℝ
  finite : Bool

/-- IEEE-style division: a zero denominator gives a (defined) non-finite
result instead of an error. -/
noncomputable def fdiv (a b : ℝ) : FloatVal :=
  if b = 0 then ⟨0, false⟩ else ⟨a / b, true⟩

/-- computeDOLP (line 211): `100.0 * np.sqrt(S1*S1 + S2*S2) / S0`,
elementwise with NumPy semantics; the final division is IEEE division. -/
noncomputable def computeDOLP (S0 S1 S2 : NpArray ℝ) :
    Option (NpArray FloatVal) := do
  let a ← npZip (· * ·) S1 S1
  let b ← npZip (· * ·) S2 S2
  let s ← npZip (· + ·) a b
  let r := npMap Real.sqrt s
  let n := npMap (fun x => 100 * x) r
  npZip fdiv n S0

/-- The function `np.arctan2 y x`: the angle of the point (x, y), i.e. `arg (x + i·y)`,
with values in (-π, π].  (IEEE signed zeros are outside the real-number
model; `arctan2 0 0 = 0` as in NumPy.) -/
noncomputable def arctan2 (y x : ℝ) : ℝ := Complex.arg ⟨x, y⟩

/-- The function `np.rad2deg`: multiply by 180/π. -/
noncomputable def rad2deg (x : ℝ) : ℝ := x * (180 / Real.pi)

/-- computeAOLP (line 232): `np.rad2deg(0.5 * np.arctan2(S2, S1))`,
elementwise with NumPy semantics. -/
noncomputable def computeAOLP (S1 S2 : NpArray ℝ) : Option (NpArray ℝ) := do
  let t ← npZip arctan2 S2 S1
  return npMap rad2deg (npMap (fun x => 0.5 * x) t)

/-- snr-dolp.py lines 29-47, per pixel (all the NumPy operations involved
are elementwise): Stokes parameters, shot-noise uncertainties
δS1 = sqrt(i000+i090), δS2 = sqrt(i045+i135), the squared norm
h2 = (S1²+S2²)² clamped below by 1 (line 43), the relative DoLP variance,
and SNR = 1/sqrt of it. -/
noncomputable def snr_dolp (i000 i045 i090 i135 : ℝ) : ℝ :=
  let S0 := (i000 + i045 + i090 + i135) / 2
  let S1 := i000 - i090
  let S2 := i045 - i135
  let del_S1 := Real.sqrt (i000 + i090)
  let del_S2 := Real.sqrt (i045 + i135)
  let S1sq := S1 * S1
  let S2sq := S2 * S2
  let del_S1sq := del_S1 * del_S1
  let del_S2sq := del_S2 * del_S2
  let h2 := (S1sq + S2sq) * (S1sq + S2sq)
  let h2c := if h2 < 1 then 1 else h2
  let rel := (S1sq * del_S1sq + S2sq * del_S2sq) / h2c + 0.5 / S0
  1.0 / Real.sqrt rel

/-- Applying `computeDOLP` on equal shapes: it succeeds and is the pixelwise IEEE
division `fdiv (100·sqrt(S1²+S2²)) S0` inside the shape. -/
theorem computeDOLP_some (S0 S1 S2 : NpArray ℝ)
    (h1r : S1.nr = S0.nr) (h1c : S1.nc = S0.nc)
    (h2r : S2.nr = S0.nr) (h2c : S2.nc = S0.nc) :
    ∃ D, computeDOLP S0 S1 S2 = some D ∧ D.nr = S0.nr ∧ D.nc = S0.nc ∧
      ∀ i j, i < S0.nr → j < S0.nc →
        D.entry i j = fdiv (100 * Real.sqrt (S1.entry i j * S1.entry i j +
          S2.entry i j * S2.entry i j)) (S0.entry i j) := by
  obtain ⟨A, hA, hAr, hAc, hAe⟩ := npZip_some (· * ·) S1 S1 rfl rfl
  obtain ⟨B, hB, hBr, hBc, hBe⟩ := npZip_some (· * ·) S2 S2 rfl rfl
  obtain ⟨S, hS, hSr, hSc, hSe⟩ := npZip_some (· + ·) A B (by omega) (by omega)
  obtain ⟨D, hD, hDr, hDc, hDe⟩ :=
    npZip_some fdiv (npMap (fun x => 100 * x) (npMap Real.sqrt S)) S0
      (by simp only [npMap]; omega) (by simp only [npMap]; omega)
  refine ⟨D, ?_, ?_, ?_, ?_⟩
  · simp [computeDOLP, hA, hB, hS, hD]
  · rw [hDr]; simp only [npMap]; omega
  · rw [hDc]; simp only [npMap]; omega
  · intro i j hi hj
    have e := hDe i j (by simp only [npMap]; omega) (by simp only [npMap]; omega)
    rw [e]
    simp only [npMap]
    rw [hSe i j (by omega) (by omega), hAe i j (by omega) (by omega),
      hBe i j (by omega) (by omega)]

/-- Claim C5 (amended): computeStokes implements exactly S0 = (Σ I)/2,
S1 = I000 - I090, S2 = I045 - I135; on four constant arrays of value v it
yields S0 = 2v, S1 = 0, S2 = 0, and for v ≠ 0 the resulting DoLP is 0
(at v = 0 the DoLP division is 0/0 and gives a non-finite value). -/
theorem computeStokes_spec :
    (∀ a b c d : NpArray ℚ, b.nr = a.nr → b.nc = a.nc → c.nr = a.nr →
      c.nc = a.nc → d.nr = a.nr → d.nc = a.nc →
      ∃ S0 S1 S2, computeStokes a b c d = some (S0, S1, S2) ∧
        S0.nr = a.nr ∧ S0.nc = a.nc ∧ S1.nr = a.nr ∧ S1.nc = a.nc ∧
        S2.nr = a.nr ∧ S2.nc = a.nc ∧
        ∀ i j, i < a.nr → j < a.nc →
          S0.entry i j =
            (a.entry i j + b.entry i j + c.entry i j + d.entry i j) / 2 ∧
          S1.entry i j = a.entry i j - c.entry i j ∧
          S2.entry i j = b.entry i j - d.entry i j) ∧
    (∀ (v : ℚ) (r c i j : ℕ), i < r → j < c →
      ((computeStokes (constArr r c v) (constArr r c v) (constArr r c v)
          (constArr r c v)).map fun t =>
        (t.1.entry i j, t.2.1.entry i j, t.2.2.entry i j)) =
        some (2 * v, 0, 0)) ∧
    (∀ v : ℝ, v ≠ 0 →
      ((computeDOLP (constArr 1 1 (2 * v)) (constArr 1 1 0)
          (constArr 1 1 0)).map fun D => D.entry 0 0) = some ⟨0, true⟩) := by
  have main : ∀ a b c d : NpArray ℚ, b.nr = a.nr → b.nc = a.nc → c.nr = a.nr →
      c.nc = a.nc → d.nr = a.nr → d.nc = a.nc →
      ∃ S0 S1 S2, computeStokes a b c d = some (S0, S1, S2) ∧
        S0.nr = a.nr ∧ S0.nc = a.nc ∧ S1.nr = a.nr ∧ S1.nc = a.nc ∧
        S2.nr = a.nr ∧ S2.nc = a.nc ∧
        ∀ i j, i < a.nr → j < a.nc →
          S0.entry i j =
            (a.entry i j + b.entry i j + c.entry i j + d.entry i j) / 2 ∧
          S1.entry i j = a.entry i j - c.entry i j ∧
          S2.entry i j = b.entry i j - d.entry i j := by
    intro a b c d hbr hbc hcr hcc hdr hdc
    obtain ⟨Z1, hZ1, hZ1r, hZ1c, hZ1e⟩ := npZip_some (· + ·) a b hbr.symm hbc.symm
    obtain ⟨Z2, hZ2, hZ2r, hZ2c, hZ2e⟩ := npZip_some (· + ·) Z1 c (by omega) (by omega)
    obtain ⟨Z3, hZ3, hZ3r, hZ3c, hZ3e⟩ := npZip_some (· + ·) Z2 d (by omega) (by omega)
    obtain ⟨W1, hW1, hW1r, hW1c, hW1e⟩ := npZip_some (· - ·) a c hcr.symm hcc.symm
    obtain ⟨W2, hW2, hW2r, hW2c, hW2e⟩ := npZip_some (· - ·) b d (by omega) (by omega)
    refine ⟨npMap (· / 2) Z3, W1, W2, ?_, ?_, ?_, by omega, by omega, by omega,
      by omega, ?_⟩
    · simp [computeStokes, hZ1, hZ2, hZ3, hW1, hW2]
    · simp only [npMap]; omega
    · simp only [npMap]; omega
    · intro i j hi hj
      refine ⟨?_, hW1e i j (by omega) (by omega), hW2e i j (by omega) (by omega)⟩
      simp only [npMap]
      rw [hZ3e i j (by omega) (by omega), hZ2e i j (by omega) (by omega),
        hZ1e i j (by omega) (by omega)]
  refine ⟨main, ?_, ?_⟩
  · intro v r c i j hi hj
    obtain ⟨S0, S1, S2, hsome, h1, h2, h3, h4, h5, h6, he⟩ :=
      main (constArr r c v) (constArr r c v) (constArr r c v) (constArr r c v)
        rfl rfl rfl rfl rfl rfl
    rw [hsome]
    obtain ⟨e0, e1, e2⟩ := he i j hi hj
    simp only [Option.map_some', e0, e1, e2, constArr]
    norm_num
    ring
  · intro v hv
    obtain ⟨D, hD, _, _, hDe⟩ := computeDOLP_some (constArr 1 1 (2 * v))
      (constArr 1 1 0) (constArr 1 1 0) rfl rfl rfl rfl
    rw [hD]
    have h2v : (2 : ℝ) * v ≠ 0 := mul_ne_zero two_ne_zero hv
    simp only [Option.map_some', hDe 0 0 Nat.one_pos Nat.one_pos, constArr]
    simp [fdiv, h2v]

/-- Witness for C5 (amended): four constant arrays of value 3 give
(S0, S1, S2) = (6, 0, 0), and DoLP of (S0, S1, S2) = (2·1, 0, 0) is 0. -/
theorem computeStokes_spec_witness :
    ((computeStokes (constArr 1 1 (3 : ℚ)) (constArr 1 1 3) (constArr 1 1 3)
        (constArr 1 1 3)).map fun t =>
      (t.1.entry 0 0, t.2.1.entry 0 0, t.2.2.entry 0 0)) = some (2 * 3, 0, 0) ∧
    ((computeDOLP (constArr 1 1 (2 * (1 : ℝ))) (constArr 1 1 0)
        (constArr 1 1 0)).map fun D => D.entry 0 0) = some ⟨0, true⟩ :=
  ⟨computeStokes_spec.2.1 3 1 1 0 0 Nat.one_pos Nat.one_pos,
   computeStokes_spec.2.2 1 one_ne_zero⟩

/-- Claim C5 (counterexample): with all four constant arrays equal to v = 0 the
Stokes total S0 is 0 and the DoLP division is 0/0, whose IEEE result is
non-finite (NaN) — not the claimed 0. -/
theorem c5_dolp_nan_cex :
    ((computeStokes (constArr 1 1 (0 : ℚ)) (constArr 1 1 0) (constArr 1 1 0)
        (constArr 1 1 0)).map fun t => t.1.entry 0 0) = some 0 ∧
    ((computeDOLP (constArr 1 1 (0 : ℝ)) (constArr 1 1 0)
        (constArr 1 1 0)).map fun D => (D.entry 0 0).finite) = some false := by
  constructor
  · simp [computeStokes, npZip, bcastDim, npMap, constArr]
  · simp [computeDOLP, npZip, bcastDim, npMap, constArr, fdiv]

/-- Claim C6: computeDOLP is pixelwise `100·sqrt(S1²+S2²)/S0` as an IEEE
division — total (it raises nothing), non-finite exactly where S0 = 0 —
and the formula does not bound the result to [0, 100]: S0 = 50, S1 = 100,
S2 = 0 gives exactly 200. -/
theorem computeDOLP_spec :
    (∀ S0 S1 S2 : NpArray ℝ, S1.nr = S0.nr → S1.nc = S0.nc → S2.nr = S0.nr →
      S2.nc = S0.nc →
      ∃ D, computeDOLP S0 S1 S2 = some D ∧ D.nr = S0.nr ∧ D.nc = S0.nc ∧
        ∀ i j, i < S0.nr → j < S0.nc →
          D.entry i j = fdiv (100 * Real.sqrt (S1.entry i j * S1.entry i j +
            S2.entry i j * S2.entry i j)) (S0.entry i j) ∧
          (S0.entry i j = 0 → (D.entry i j).finite = false) ∧
          (S0.entry i j ≠ 0 → D.entry i j =
            ⟨100 * Real.sqrt (S1.entry i j * S1.entry i j +
              S2.entry i j * S2.entry i j) / S0.entry i j, true⟩)) ∧
    ((computeDOLP (constArr 1 1 50) (constArr 1 1 100) (constArr 1 1 0)).map
      fun D => D.entry 0 0) = some ⟨200, true⟩ := by
  constructor
  · intro S0 S1 S2 h1r h1c h2r h2c
    obtain ⟨D, hD, hDr, hDc, hDe⟩ := computeDOLP_some S0 S1 S2 h1r h1c h2r h2c
    refine ⟨D, hD, hDr, hDc, fun i j hi hj => ⟨hDe i j hi hj, ?_, ?_⟩⟩
    · intro h0
      rw [hDe i j hi hj]
      simp [fdiv, h0]
    · intro h0
      rw [hDe i j hi hj]
      simp [fdiv, h0]
  · obtain ⟨D, hD, _, _, hDe⟩ := computeDOLP_some (constArr 1 1 50)
      (constArr 1 1 100) (constArr 1 1 0) rfl rfl rfl rfl
    rw [hD]
    simp only [Option.map_some', hDe 0 0 Nat.one_pos Nat.one_pos, constArr]
    rw [show (100 : ℝ) * 100 + 0 * 0 = 100 ^ 2 by norm_num,
      Real.sqrt_sq (by norm_num : (0 : ℝ) ≤ 100)]
    simp only [fdiv]
    rw [if_neg (by norm_num)]
    norm_num

/-- Witness for C6: at S0 = 0 (constant arrays) the DoLP value is
non-finite. -/
theorem computeDOLP_spec_witness :
    ((computeDOLP (constArr 1 1 (0 : ℝ)) (constArr 1 1 (1 : ℝ))
        (constArr 1 1 0)).map fun D => (D.entry 0 0).finite) = some false := by
  obtain ⟨D, hD, _, _, hDe⟩ := computeDOLP_spec.1 (constArr 1 1 (0 : ℝ))
    (constArr 1 1 (1 : ℝ)) (constArr 1 1 0) rfl rfl rfl rfl
  rw [hD]
  simp only [Option.map_some']
  exact congrArg some ((hDe 0 0 Nat.one_pos Nat.one_pos).2.1 rfl)

/-- The AoLP pixel formula lands in (-90°, 90°]. -/
theorem aolp_pix_range (y x : ℝ) :
    -90 < rad2deg (0.5 * arctan2 y x) ∧ rad2deg (0.5 * arctan2 y x) ≤ 90 := by
  have harg1 : -Real.pi < Complex.arg ⟨x, y⟩ := Complex.neg_pi_lt_arg _
  have harg2 : Complex.arg ⟨x, y⟩ ≤ Real.pi := Complex.arg_le_pi _
  have hpi : (0 : ℝ) < Real.pi := Real.pi_pos
  have he : rad2deg (0.5 * arctan2 y x) = Complex.arg ⟨x, y⟩ * (90 / Real.pi) := by
    simp only [rad2deg, arctan2]
    ring
  rw [he]
  constructor
  · have h := mul_lt_mul_of_pos_right harg1 (show (0 : ℝ) < 90 / Real.pi by positivity)
    have e : -Real.pi * (90 / Real.pi) = -90 := by
      field_simp
      ring
    linarith [e ▸ h]
  · have h := mul_le_mul_of_nonneg_right harg2
      (show (0 : ℝ) ≤ 90 / Real.pi by positivity)
    have e : Real.pi * (90 / Real.pi) = 90 := by
      field_simp
    linarith [e ▸ h]

/-- Claim C7: computeAOLP is pixelwise `(180/π)·0.5·atan2(S2, S1)` and every
value lies in (-90°, 90°]. -/
theorem computeAOLP_spec :
    ∀ S1 S2 : NpArray ℝ, S2.nr = S1.nr → S2.nc = S1.nc →
      ∃ A, computeAOLP S1 S2 = some A ∧ A.nr = S1.nr ∧ A.nc = S1.nc ∧
        ∀ i j, i < S1.nr → j < S1.nc →
          A.entry i j = rad2deg (0.5 * arctan2 (S2.entry i j) (S1.entry i j)) ∧
          -90 < A.entry i j ∧ A.entry i j ≤ 90 := by
  intro S1 S2 hr hc
  obtain ⟨T, hT, hTr, hTc, hTe⟩ := npZip_some arctan2 S2 S1 hr hc
  refine ⟨npMap rad2deg (npMap (fun x => 0.5 * x) T), ?_, ?_, ?_, ?_⟩
  · simp [computeAOLP, hT]
  · simp only [npMap]; omega
  · simp only [npMap]; omega
  · intro i j hi hj
    have e : (npMap rad2deg (npMap (fun x => 0.5 * x) T)).entry i j =
        rad2deg (0.5 * T.entry i j) := rfl
    rw [e, hTe i j (by omega) (by omega)]
    exact ⟨rfl, (aolp_pix_range _ _).1, (aolp_pix_range _ _).2⟩

/-- Witness for C7 at the constant pixel (S1, S2) = (1, 0). -/
theorem computeAOLP_spec_witness :
    ((computeAOLP (constArr 1 1 (1 : ℝ)) (constArr 1 1 0)).map
      fun A => A.entry 0 0) = some (rad2deg (0.5 * arctan2 0 1)) := by
  obtain ⟨A, hA, _, _, hAe⟩ :=
    computeAOLP_spec (constArr 1 1 (1 : ℝ)) (constArr 1 1 0) rfl rfl
  rw [hA]
  simp only [Option.map_some']
  exact congrArg some (hAe 0 0 Nat.one_pos Nat.one_pos).1

/-- Closed form of `snr_dolp` once the two `sqrt·sqrt` pairs are collapsed
(valid for nonnegative intensity sums). -/
theorem snr_dolp_eval (i000 i045 i090 i135 : ℝ)
    (h1 : 0 ≤ i000 + i090) (h2 : 0 ≤ i045 + i135) :
    snr_dolp i000 i045 i090 i135 =
      1 / Real.sqrt
        ((((i000 - i090) * (i000 - i090)) * (i000 + i090) +
          ((i045 - i135) * (i045 - i135)) * (i045 + i135)) /
          (if ((i000 - i090) * (i000 - i090) + (i045 - i135) * (i045 - i135)) *
              ((i000 - i090) * (i000 - i090) + (i045 - i135) * (i045 - i135)) < 1
            then 1
            else ((i000 - i090) * (i000 - i090) + (i045 - i135) * (i045 - i135)) *
              ((i000 - i090) * (i000 - i090) + (i045 - i135) * (i045 - i135))) +
          1 / 2 / ((i000 + i045 + i090 + i135) / 2)) := by
  simp only [snr_dolp]
  rw [Real.mul_self_sqrt h1, Real.mul_self_sqrt h2]
  norm_num

/-- Claim C8 (counterexample): doubling all four intensities of the weakly
polarized pixel (100, 100.5, 100, 100) strictly DECREASES the propagated
SNR: the clamp h2 := max((S1²+S2²)², 1) is active at the base scale, so
the variance numerator grows as t³ while the clamp holds the denominator
fixed at 1. -/
theorem c8_snr_monotonicity_cex :
    snr_dolp (2 * 100) (2 * (201 / 2)) (2 * 100) (2 * 100) <
      snr_dolp 100 (201 / 2) 100 100 := by
  rw [snr_dolp_eval _ _ _ _ (by norm_num) (by norm_num),
    snr_dolp_eval _ _ _ _ (by norm_num) (by norm_num)]
  rw [if_neg (by norm_num), if_pos (by norm_num)]
  exact one_div_lt_one_div_of_lt (Real.sqrt_pos.mpr (by norm_num))
    (Real.sqrt_lt_sqrt (by norm_num) (by norm_num))

/-- Claim C8 (amended): for strictly positive intensities at a pixel where the
clamp is inactive — i.e. (S1²+S2²)² ≥ 1 — uniformly scaling all four
intensities by t > 1 strictly increases the propagated SNR of DoLP. -/
theorem snr_dolp_monotone (i000 i045 i090 i135 t : ℝ)
    (h000 : 0 < i000) (h045 : 0 < i045) (h090 : 0 < i090) (h135 : 0 < i135)
    (ht : 1 < t)
    (hp : 1 ≤ ((i000 - i090) * (i000 - i090) + (i045 - i135) * (i045 - i135)) *
      ((i000 - i090) * (i000 - i090) + (i045 - i135) * (i045 - i135))) :
    snr_dolp i000 i045 i090 i135 <
      snr_dolp (t * i000) (t * i045) (t * i090) (t * i135) := by
  have ht0 : (0 : ℝ) < t := by linarith
  have hb1 : 0 ≤ i000 + i090 := by linarith
  have hb2 : 0 ≤ i045 + i135 := by linarith
  have hs1 : 0 ≤ t * i000 + t * i090 := by nlinarith
  have hs2 : 0 ≤ t * i045 + t * i135 := by nlinarith
  rw [snr_dolp_eval _ _ _ _ hb1 hb2, snr_dolp_eval _ _ _ _ hs1 hs2]
  rw [if_neg (not_lt.mpr hp)]
  have ht2 : 1 ≤ t * t := by nlinarith
  have ht4 : 1 ≤ t * t * (t * t) := by
    nlinarith [mul_le_mul ht2 ht2 zero_le_one (by linarith : (0 : ℝ) ≤ t * t)]
  have hq :
      ((t * i000 - t * i090) * (t * i000 - t * i090) +
        (t * i045 - t * i135) * (t * i045 - t * i135)) *
      ((t * i000 - t * i090) * (t * i000 - t * i090) +
        (t * i045 - t * i135) * (t * i045 - t * i135)) =
      (t * t * (t * t)) *
        (((i000 - i090) * (i000 - i090) + (i045 - i135) * (i045 - i135)) *
          ((i000 - i090) * (i000 - i090) + (i045 - i135) * (i045 - i135))) := by
    ring
  have hq1 : 1 ≤ ((t * i000 - t * i090) * (t * i000 - t * i090) +
      (t * i045 - t * i135) * (t * i045 - t * i135)) *
      ((t * i000 - t * i090) * (t * i000 - t * i090) +
        (t * i045 - t * i135) * (t * i045 - t * i135)) := by
    rw [hq]
    calc (1 : ℝ) = 1 * 1 := by ring
    _ ≤ (t * t * (t * t)) *
        (((i000 - i090) * (i000 - i090) + (i045 - i135) * (i045 - i135)) *
          ((i000 - i090) * (i000 - i090) + (i045 - i135) * (i045 - i135))) :=
      mul_le_mul ht4 hp zero_le_one (le_trans zero_le_one ht4)
  rw [if_neg (not_lt.mpr hq1)]
  have hpp : (0 : ℝ) <
      ((i000 - i090) * (i000 - i090) + (i045 - i135) * (i045 - i135)) *
      ((i000 - i090) * (i000 - i090) + (i045 - i135) * (i045 - i135)) :=
    lt_of_lt_of_le one_pos hp
  have hqq : (0 : ℝ) <
      ((t * i000 - t * i090) * (t * i000 - t * i090) +
        (t * i045 - t * i135) * (t * i045 - t * i135)) *
      ((t * i000 - t * i090) * (t * i000 - t * i090) +
        (t * i045 - t * i135) * (t * i045 - t * i135)) :=
    lt_of_lt_of_le one_pos hq1
  have hS0b : (0 : ℝ) < (i000 + i045 + i090 + i135) / 2 := by linarith
  have hS0s : (0 : ℝ) < (t * i000 + t * i045 + t * i090 + t * i135) / 2 := by
    nlinarith
  have hM : (0 : ℝ) ≤
      ((i000 - i090) * (i000 - i090)) * (i000 + i090) +
      ((i045 - i135) * (i045 - i135)) * (i045 + i135) :=
    add_nonneg (mul_nonneg (mul_self_nonneg _) hb1)
      (mul_nonneg (mul_self_nonneg _) hb2)
  have hEb : (0 : ℝ) <
      (((i000 - i090) * (i000 - i090)) * (i000 + i090) +
        ((i045 - i135) * (i045 - i135)) * (i045 + i135)) /
        (((i000 - i090) * (i000 - i090) + (i045 - i135) * (i045 - i135)) *
          ((i000 - i090) * (i000 - i090) + (i045 - i135) * (i045 - i135))) +
        1 / 2 / ((i000 + i045 + i090 + i135) / 2) :=
    add_pos_of_nonneg_of_pos (div_nonneg hM (le_of_lt hpp)) (by positivity)
  have hES :
      (((t * i000 - t * i090) * (t * i000 - t * i090)) * (t * i000 + t * i090) +
        ((t * i045 - t * i135) * (t * i045 - t * i135)) * (t * i045 + t * i135)) /
        (((t * i000 - t * i090) * (t * i000 - t * i090) +
          (t * i045 - t * i135) * (t * i045 - t * i135)) *
          ((t * i000 - t * i090) * (t * i000 - t * i090) +
            (t * i045 - t * i135) * (t * i045 - t * i135))) +
        1 / 2 / ((t * i000 + t * i045 + t * i090 + t * i135) / 2) =
      ((((i000 - i090) * (i000 - i090)) * (i000 + i090) +
        ((i045 - i135) * (i045 - i135)) * (i045 + i135)) /
        (((i000 - i090) * (i000 - i090) + (i045 - i135) * (i045 - i135)) *
          ((i000 - i090) * (i000 - i090) + (i045 - i135) * (i045 - i135))) +
        1 / 2 / ((i000 + i045 + i090 + i135) / 2)) / t := by
    rw [hq]
    have hsum : t * i000 + t * i045 + t * i090 + t * i135 =
        t * (i000 + i045 + i090 + i135) := by ring
    have hnum : ((t * i000 - t * i090) * (t * i000 - t * i090)) * (t * i000 + t * i090) +
        ((t * i045 - t * i135) * (t * i045 - t * i135)) * (t * i045 + t * i135) =
        (t * t * t) * (((i000 - i090) * (i000 - i090)) * (i000 + i090) +
          ((i045 - i135) * (i045 - i135)) * (i045 + i135)) := by ring
    rw [hsum, hnum]
    have hppne := ne_of_gt hpp
    have hSne : i000 + i045 + i090 + i135 ≠ 0 := by positivity
    have htne := ne_of_gt ht0
    field_simp
    ring
  rw [hES]
  have hlt : (((( i000 - i090) * (i000 - i090)) * (i000 + i090) +
        ((i045 - i135) * (i045 - i135)) * (i045 + i135)) /
        (((i000 - i090) * (i000 - i090) + (i045 - i135) * (i045 - i135)) *
          ((i000 - i090) * (i000 - i090) + (i045 - i135) * (i045 - i135))) +
        1 / 2 / ((i000 + i045 + i090 + i135) / 2)) / t <
      (((i000 - i090) * (i000 - i090)) * (i000 + i090) +
        ((i045 - i135) * (i045 - i135)) * (i045 + i135)) /
        (((i000 - i090) * (i000 - i090) + (i045 - i135) * (i045 - i135)) *
          ((i000 - i090) * (i000 - i090) + (i045 - i135) * (i045 - i135))) +
        1 / 2 / ((i000 + i045 + i090 + i135) / 2) :=
    div_lt_self hEb ht
  exact one_div_lt_one_div_of_lt (Real.sqrt_pos.mpr (div_pos hEb ht0))
    (Real.sqrt_lt_sqrt (le_of_lt (div_pos hEb ht0)) hlt)

/-- Witness for C8 (amended): scaling the unclamped pixel (2, 1, 1, 1) by
t = 2 strictly increases its SNR. -/
theorem snr_dolp_monotone_witness :
    snr_dolp 2 1 1 1 < snr_dolp (2 * 2) (2 * 1) (2 * 1) (2 * 1) :=
  snr_dolp_monotone 2 1 1 1 2 (by norm_num) (by norm_num) (by norm_num)
    (by norm_num) (by norm_num) (by norm_num)

/-- A 1×2 constant array used for the C10 broadcasting examples. -/
def bc12 : NpArray ℚ := constArr 1 2 1

/-- A 2×1 constant array used for the C10 broadcasting examples. -/
def bc21 : NpArray ℚ := constArr 2 1 2

/-- A 2×3 constant array used for the C10 incompatible-shape examples. -/
def bc23 : NpArray ℚ := constArr 2 3 1

/-- A 2×2 constant array used for the C10 incompatible-shape examples. -/
def bc22 : NpArray ℚ := constArr 2 2 1

/-- Claim C10 (counterexample): computeStokes does no shape validation — fed a
1×2 and a 2×1 array it silently broadcasts and returns a 2×2 S0 instead of
failing fast. -/
theorem c10_no_shape_check_cex :
    ((computeStokes bc12 bc21 bc12 bc21).map fun t => (t.1.nr, t.1.nc)) =
      some (2, 2) ∧ bc12.nr ≠ bc21.nr := by
  constructor
  · rfl
  · decide

/-- Claim C10 (amended): neither computeStokes nor computeDOLP validates shapes
(no ShapeMismatchError exists anywhere in the code): broadcast-compatible
mismatches are silently combined under NumPy broadcasting, and only
broadcast-incompatible shapes make the array library itself raise
(modelled `none`). -/
theorem computeStokes_computeDOLP_no_validation :
    ((computeStokes bc12 bc21 bc12 bc21).map fun t =>
      (t.1.nr, t.1.nc, t.2.1.nr, t.2.1.nc, t.2.2.nr, t.2.2.nc)) =
      some (2, 2, 1, 2, 2, 1) ∧
    computeStokes bc23 bc22 bc23 bc22 = none ∧
    ((computeDOLP (constArr 1 2 (1 : ℝ)) (constArr 2 1 1) (constArr 1 2 1)).map
      fun D => (D.nr, D.nc)) = some (2, 2) ∧
    computeDOLP (constArr 2 3 (1 : ℝ)) (constArr 2 2 1) (constArr 2 2 1) =
      none := by
  exact ⟨rfl, rfl, rfl, rfl⟩
